import Mathlib

/-!
Shallow embedding of the DEEPX-AI/squash-merge-action sources
(`src/index.js`, the locally-cloning variant, and the unnamed hosted-API
variant) together with proofs about the batch iterator, the per-repository
merge pipeline, the commit-message composer, the version-bump classifier,
the working-directory frame property of the local merge strategy, and the
`main` entry point.

JavaScript strings are modelled as Lean `String`s (lists of characters);
the handful of JS string primitives the code uses (`split`, `trim`,
`toLowerCase`, `includes`, `startsWith`, single-occurrence `replace`,
`substring`) are defined below, faithful to their JS semantics on the
ASCII inputs this program manipulates.  Asynchronous calls to the GitHub
API and to the `git` subprocess are modelled by environments that supply
each call's result (`Except.ok` for a resolved promise, `Except.error`
for a rejected one); the pipeline functions additionally return the list
of external calls (effects) they performed, so that "operation X was never
invoked" claims are statable.
-/

namespace SquashMerge

/-! ## JS string primitives -/

/-- JS `String.prototype.split(sep)` for a single-character separator,
on character lists.  `"".split(sep)` is `[""]`, matching JS. -/
def splitSepL (sep : Char) : List Char → List (List Char)
  | [] => [[]]
  | c :: cs =>
    if c = sep then [] :: splitSepL sep cs
    else
      match splitSepL sep cs with
      | [] => [[c]]
      | h :: t => (c :: h) :: t

/-- JS `s.split(sep)` (single-character separator). -/
def splitSep (sep : Char) (s : String) : List String :=
  (splitSepL sep s.data).map String.mk

/-- Whitespace recognised by our model of JS `trim` (the inputs this
program trims are ASCII). -/
def isWS (c : Char) : Bool :=
  c = ' ' || c = '\t' || c = '\n' || c = '\r'

/-- JS `s.trim()` on ASCII data: drop leading and trailing whitespace. -/
def trimJS (s : String) : String :=
  ⟨((s.data.dropWhile isWS).reverse.dropWhile isWS).reverse⟩

/-- JS `s.toLowerCase()` (character-wise lowering suffices for the ASCII
keywords this program matches). -/
def lowerJS (s : String) : String :=
  ⟨s.data.map Char.toLower⟩

/-- JS `hay.includes(needle)` on character lists. -/
def includesL (needle : List Char) : List Char → Bool
  | [] => needle.isEmpty
  | c :: cs => needle.isPrefixOf (c :: cs) || includesL needle cs

/-- JS `hay.includes(needle)`. -/
def includesS (hay needle : String) : Bool :=
  includesL needle.data hay.data

/-- JS `hay.startsWith(needle)`. -/
def startsWithS (hay needle : String) : Bool :=
  needle.data.isPrefixOf hay.data

/-- JS `s.replace(pat, rep)` with a string pattern: replace the FIRST
occurrence only (on character lists). -/
def replaceFirstL (pat rep : List Char) : List Char → List Char
  | [] => if pat.isEmpty then rep else []
  | c :: cs =>
    if pat.isPrefixOf (c :: cs) then rep ++ (c :: cs).drop pat.length
    else c :: replaceFirstL pat rep cs

/-- JS `s.replace(pat, rep)` (first occurrence only). -/
def replaceFirst (s pat rep : String) : String :=
  ⟨replaceFirstL pat.data rep.data s.data⟩

/-- JS `s.substring(0, n)`. -/
def strTake (n : Nat) (s : String) : String :=
  ⟨s.data.take n⟩

/-- JS `s.split('\n')[0]`: everything before the first newline. -/
def firstLine (s : String) : String :=
  ⟨s.data.takeWhile (fun c => c ≠ '\n')⟩

/-- Concatenation of a list of strings (used to state the composer's
"followed by the lines ..." shape). -/
def strConcat : List String → String
  | [] => ""
  | s :: rest => s ++ strConcat rest

/-! ## Repository iterator (`executeSquashMerge`, both variants)

`executeSquashMerge` walks `target_repos`; for each element it splits on
`/`, destructures the FIRST TWO segments as `owner` and `repo`
(`const [owner, repo] = repoFullName.split('/')`), records a
`Failed {error: 'Invalid repository format'}` outcome when either is
falsy (absent or empty), and otherwise invokes `processRepository`.
The pipeline call is abstracted by an oracle `proc : String → String →
ProcResult` giving, for each `(owner, repo)` pair, either the shape of the
record the pipeline returned or the message of the error it threw. -/

/-- The record the loop pushes into one of the three buckets.  The
source classifies by JS truthiness of `result.success` and
`result.skipped`. -/
structure IterOutcome where
  repo : String
  success : Bool
  skipped : Bool
  error : Option String
deriving DecidableEq, Repr

/-- Behaviour of one `processRepository` call, as seen by the loop:
either it resolved to a record with the given classification flags, or it
threw an error with the given message. -/
inductive ProcResult where
  | returns (success skipped : Bool) (error : Option String)
  | throws (msg : String)
deriving DecidableEq, Repr

/-- First `/`-segment of a repository identifier (JS `split('/')[0]`,
defaulting the absent case). -/
def seg0 (r : String) : String := ((splitSep '/' r).get? 0).getD ""

/-- Second `/`-segment of a repository identifier (JS `split('/')[1]`). -/
def seg1 (r : String) : String := ((splitSep '/' r).get? 1).getD ""

/-- JS falsiness of `split('/')[i]`: the segment is absent (`undefined`)
or the empty string. -/
def falsyOpt : Option String → Bool
  | none => true
  | some s => s = ""

/-- The loop's `!owner || !repo` test. -/
def invalidFmt (r : String) : Bool :=
  falsyOpt ((splitSep '/' r).get? 0) || falsyOpt ((splitSep '/' r).get? 1)

/-- The outcome record the loop body produces for one element of
`target_repos` (the `Failed` record for an invalid format, the pipeline's
record — whose `repo` field the pipeline sets to `owner ++ "/" ++ repo` —
or the `Failed` record the `catch` builds from a thrown error). -/
def stepOutcome (proc : String → String → ProcResult) (r : String) :
    IterOutcome :=
  if invalidFmt r then ⟨r, false, false, some "Invalid repository format"⟩
  else
    match proc (seg0 r) (seg1 r) with
    | .returns b sk err => ⟨seg0 r ++ "/" ++ seg1 r, b, sk, err⟩
    | .throws m => ⟨r, false, false, some m⟩

/-- Ghost instrumentation: the `(owner, repo)` pairs on which the loop
body invokes `processRepository` (empty for an invalid format; the call
happens — and is recorded — even when the pipeline then throws). -/
def stepCalls (r : String) : List (String × String) :=
  if invalidFmt r then [] else [(seg0 r, seg1 r)]

/-- The `summary` object built after the loop. -/
structure Summary where
  total : Nat
  successful : Nat
  failed : Nat
  skipped : Nat
deriving DecidableEq, Repr

/-- The `results` object: three outcome buckets, the summary, and the
ghost list of pipeline invocations. -/
structure BatchResults where
  successful : List IterOutcome
  failed : List IterOutcome
  skipped : List IterOutcome
  summary : Summary
  calls : List (String × String)
deriving DecidableEq, Repr

/-- The `for (const repoFullName of target_repos)` loop: classify each
element's outcome into the matching bucket (`success` truthy →
successful; else `skipped` truthy → skipped; else failed), in input
order. -/
def runBuckets (proc : String → String → ProcResult) :
    List String →
      (List IterOutcome × List IterOutcome × List IterOutcome) ×
        List (String × String)
  | [] => (([], [], []), [])
  | r :: rs =>
    let o := stepOutcome proc r
    let rest := runBuckets proc rs
    let s := rest.1.1
    let f := rest.1.2.1
    let sk := rest.1.2.2
    let buckets :=
      if o.success then (o :: s, f, sk)
      else if o.skipped then (s, f, o :: sk)
      else (s, o :: f, sk)
    (buckets, stepCalls r ++ rest.2)

/-- `executeSquashMerge`: run the loop over `target_repos` and attach the
summary (`total` is the input length, the three counts are the bucket
lengths). -/
def executeSquashMerge (proc : String → String → ProcResult)
    (target_repos : List String) : BatchResults :=
  let run := runBuckets proc target_repos
  { successful := run.1.1
    failed := run.1.2.1
    skipped := run.1.2.2
    summary := ⟨target_repos.length, run.1.1.length, run.1.2.1.length,
      run.1.2.2.length⟩
    calls := run.2 }

/-! ## Per-repository merge pipeline (`processRepository`, `src/index.js`)

Each awaited external call is supplied by a `PipeEnv` field
(`Except.ok` = resolved, `Except.error msg` = rejected with
`error.message = msg`); the pipeline also returns the ordered list of
external operations it performed. -/

/-- One squashed commit as returned by the compare endpoint
(`commit.sha` and `commit.commit.message`). -/
structure CommitInfo where
  sha : String
  message : String
deriving DecidableEq, Repr

/-- Result of `compareCommits` (`base` = target, `head` = source). -/
structure Comparison where
  ahead_by : Nat
  commits : List CommitInfo
deriving DecidableEq, Repr

/-- Resolved value of `performSquashMerge` as consumed by
`processRepository`. -/
structure MergeOk where
  sha : String
  commit_message : String
deriving DecidableEq, Repr

/-- Release object returned by `createRelease`. -/
structure ReleaseInfo where
  tag_name : String
deriving DecidableEq, Repr

/-- External operations the pipeline can perform, tagged by call site. -/
inductive Effect where
  | compareCommits
  | squashMerge
  | deleteRef (branch : String)
  | getRefRecreate (branch : String)
  | createRef (branch : String) (sha : String)
  | getRefRelease (branch : String)
  | createReleaseApi (branch : String)
deriving DecidableEq, Repr

/-- Results of the external calls one `processRepository` run can make. -/
structure PipeEnv where
  compareRes : Except String Comparison
  mergeRes : Except String MergeOk
  deleteRefRes : Except String Unit
  recreateGetRefRes : Except String String
  createRefRes : Except String Unit
  releaseGetRefRes : Except String String
  createReleaseRes : Except String ReleaseInfo

/-- `deleteSourceBranch`: refuse (and warn only) on the protected names
`main` and `master`; otherwise call `git.deleteRef`. -/
def deleteSourceBranch (env : PipeEnv) (branch_name : String) :
    Except String Unit × List Effect :=
  if branch_name = "main" ∨ branch_name = "master" then (Except.ok (), [])
  else (env.deleteRefRes, [Effect.deleteRef branch_name])

/-- `recreateSourceBranchAfterDeletion`: read the base branch's tip and
create a ref with the source branch's name there. -/
def recreateSourceBranchAfterDeletion (env : PipeEnv)
    (branch_name base_branch : String) :
    Except String Unit × List Effect :=
  match env.recreateGetRefRes with
  | .error e => (.error e, [Effect.getRefRecreate base_branch])
  | .ok baseSha =>
    match env.createRefRes with
    | .error e =>
      (.error e,
       [Effect.getRefRecreate base_branch,
        Effect.createRef branch_name baseSha])
    | .ok _ =>
      (.ok (),
       [Effect.getRefRecreate base_branch,
        Effect.createRef branch_name baseSha])

/-- `createRelease`: read the target branch's tip, then create a
non-draft release against the target branch. -/
def createReleaseStep (env : PipeEnv) (target_branch : String) :
    Except String ReleaseInfo × List Effect :=
  match env.releaseGetRefRes with
  | .error e => (.error e, [Effect.getRefRelease target_branch])
  | .ok _ =>
    match env.createReleaseRes with
    | .error e =>
      (.error e,
       [Effect.getRefRelease target_branch,
        Effect.createReleaseApi target_branch])
    | .ok ri =>
      (.ok ri,
       [Effect.getRefRelease target_branch,
        Effect.createReleaseApi target_branch])

/-- The record `processRepository` resolves to: a tagged outcome whose
`repo` field is always `owner ++ "/" ++ repo`. -/
inductive PipeOutcome where
  | success (repo : String) (commits_count : Nat)
      (merge_commit_sha : String) (commit_message : String)
      (source_branch_deleted : Bool) (release : Option ReleaseInfo)
  | skippedOut (repo : String) (reason : String)
  | failedOut (repo : String) (error : String)
deriving DecidableEq, Repr

/-- `processRepository` (`src/index.js`): compare; skip when
`ahead_by === 0`; squash-merge; if the delete flag is the string
`'true'`, delete then recreate the source branch; if the release flag is
`'true'`, create a release; any error is caught and returned as a failed
record carrying the error's message. -/
def processRepository (env : PipeEnv)
    (owner repo source_branch target_branch
      delete_source_branch create_release : String) :
    PipeOutcome × List Effect :=
  let full := owner ++ "/" ++ repo
  match env.compareRes with
  | .error e => (.failedOut full e, [Effect.compareCommits])
  | .ok comparison =>
    if comparison.ahead_by = 0 then
      (.skippedOut full "No changes to merge - branches are identical",
       [Effect.compareCommits])
    else
      match env.mergeRes with
      | .error e =>
        (.failedOut full e, [Effect.compareCommits, Effect.squashMerge])
      | .ok merge_result =>
        let delStep : Except String Unit × List Effect :=
          if delete_source_branch = "true" then
            let del := deleteSourceBranch env source_branch
            match del.1 with
            | .error e => (.error e, del.2)
            | .ok _ =>
              let rec_ := recreateSourceBranchAfterDeletion env
                source_branch target_branch
              (rec_.1, del.2 ++ rec_.2)
          else (.ok (), [])
        match delStep with
        | (.error e, delEff) =>
          (.failedOut full e,
           Effect.compareCommits :: Effect.squashMerge :: delEff)
        | (.ok _, delEff) =>
          if create_release = "true" then
            match createReleaseStep env target_branch with
            | (.error e, relEff) =>
              (.failedOut full e,
               Effect.compareCommits :: Effect.squashMerge ::
                 (delEff ++ relEff))
            | (.ok ri, relEff) =>
              (.success full comparison.ahead_by merge_result.sha
                 merge_result.commit_message
                 (delete_source_branch = "true") (some ri),
               Effect.compareCommits :: Effect.squashMerge ::
                 (delEff ++ relEff))
          else
            (.success full comparison.ahead_by merge_result.sha
               merge_result.commit_message
               (delete_source_branch = "true") none,
             Effect.compareCommits :: Effect.squashMerge :: delEff)

/-! ## Local merge strategy (`performSquashMerge`, `src/index.js`)

The subprocess/filesystem world is a `GitEnv` supplying each command's
result (exec errors carry the command's stderr text), and an `FsState`
tracking the process's ambient working directory and the temporary
directories that have been created and not removed. -/

/-- Ambient filesystem state threaded through the local strategy. -/
structure FsState where
  cwd : String
  tempDirs : List String
deriving DecidableEq, Repr

/-- Results of the external commands one `performSquashMerge` run
issues, in program order. -/
structure GitEnv where
  mktempRes : Except String String
  cloneRes : Except String Unit
  configNameRes : Except String Unit
  configEmailRes : Except String Unit
  checkoutTargetRes : Except String Unit
  fetchRes : Except String Unit
  checkoutVerRes : Except String Unit
  readVerRes : Except String String
  rmVerRes : Except String Unit
  mergeSquashRes : Except String Unit
  commitRes : Except String Unit
  pushRes : Except String Unit
  revParseRes : Except String String

/-- The outer `catch`'s string-sniffing normalization of subprocess
errors. -/
def normalizeGitError (stderr : String) : String :=
  if includesS stderr "fatal: refusing to merge unrelated histories" then
    "Merge conflict detected - manual resolution required"
  else if includesS stderr "nothing to commit" then
    "Nothing to merge - branches are identical"
  else stderr

/-- The `try` body of `performSquashMerge`: mktemp, clone, chdir into
the clone, configure, checkout target, fetch source, read `release.ver`
from the source branch (any read failure or empty content falls back to
the default message inside the inner `try`/`catch`; the inner `finally`
removes the file and its own failure propagates), squash-merge, commit,
push, `rev-parse HEAD`.  Returns the result together with the
filesystem state at the point the body exits. -/
def performSquashMergeBody (env : GitEnv) (s0 : FsState) :
    Except String MergeOk × FsState :=
  match env.mktempRes with
  | .error e => (.error e, s0)
  | .ok repoDir =>
    let repoPath := trimJS repoDir
    let s1 : FsState := ⟨s0.cwd, s0.tempDirs ++ [repoPath]⟩
    match env.cloneRes with
    | .error e => (.error e, s1)
    | .ok _ =>
      let s2 : FsState := ⟨repoPath, s1.tempDirs⟩
      match env.configNameRes with
      | .error e => (.error e, s2)
      | .ok _ =>
      match env.configEmailRes with
      | .error e => (.error e, s2)
      | .ok _ =>
      match env.checkoutTargetRes with
      | .error e => (.error e, s2)
      | .ok _ =>
      match env.fetchRes with
      | .error e => (.error e, s2)
      | .ok _ =>
      match env.checkoutVerRes with
      | .error e => (.error e, s2)
      | .ok _ =>
      let commit_message :=
        match env.readVerRes with
        | .ok content =>
          let t := trimJS content
          if t = "" then "chore: squash merge" else t
        | .error _ => "chore: squash merge"
      match env.rmVerRes with
      | .error e => (.error e, s2)
      | .ok _ =>
      match env.mergeSquashRes with
      | .error e => (.error e, s2)
      | .ok _ =>
      match env.commitRes with
      | .error e => (.error e, s2)
      | .ok _ =>
      match env.pushRes with
      | .error e => (.error e, s2)
      | .ok _ =>
      match env.revParseRes with
      | .error e => (.error e, s2)
      | .ok sha => (.ok ⟨trimJS sha, commit_message⟩, s2)

/-- `performSquashMerge`: run the body, normalize a thrown error in the
`catch`, and in the `finally` restore the ambient working directory to
its value at entry (`process.chdir(originalDir)`).  Nothing removes the
temporary clone directory. -/
def performSquashMerge (env : GitEnv) (s0 : FsState) :
    Except String MergeOk × FsState :=
  let run := performSquashMergeBody env s0
  let final : FsState := ⟨s0.cwd, run.2.tempDirs⟩
  match run.1 with
  | .ok m => (.ok m, final)
  | .error e => (.error (normalizeGitError e), final)

/-! ## Commit message composer (`createCommitMessage`, hosted variant) -/

/-- One listed line of the trailer:
`"- <8-char SHA>: <first line of message truncated to 60 chars>\n"`. -/
def commitLine (c : CommitInfo) : String :=
  "- " ++ strTake 8 c.sha ++ ": " ++ strTake 60 (firstLine c.message)
    ++ "\n"

/-- `createCommitMessage`: single-occurrence substitution of
`{source}` and `{target}`, then the trailer `"Merged N commits:"`,
at most 10 listed commits (in comparison order), and an overflow line
when more than 10 commits exist. -/
def createCommitMessage (template sourceBranch targetBranch : String)
    (commits : List CommitInfo) : String :=
  let message :=
    replaceFirst (replaceFirst template "{source}" sourceBranch)
      "{target}" targetBranch
  let message :=
    message ++ "\n\nMerged " ++ toString commits.length ++ " commits:\n"
  let message :=
    (commits.take 10).foldl (fun m c => m ++ commitLine c) message
  if commits.length > 10 then
    message ++ "... and " ++ toString (commits.length - 10)
      ++ " more commits\n"
  else message

/-- The same composer written the way the specification describes it:
the substituted template, the `"Merged N commits:"` header, the
concatenation of the at most 10 listed lines, and the conditional overflow
line.  Stated from the spec's words, to be compared with the
source-derived `createCommitMessage`. -/
def createCommitMessage_specModel
    (template sourceBranch targetBranch : String)
    (commits : List CommitInfo) : String :=
  replaceFirst (replaceFirst template "{source}" sourceBranch)
      "{target}" targetBranch
    ++ "\n\nMerged " ++ toString commits.length ++ " commits:\n"
    ++ strConcat ((commits.take 10).map commitLine)
    ++ (if commits.length > 10 then
          "... and " ++ toString (commits.length - 10) ++ " more commits\n"
        else "")

/-! ## Version-bump classifier -/

/-- The three explicit bump levels (`null` is modelled by `Option`). -/
inductive Bump where
  | major
  | minor
  | patch
deriving DecidableEq, Repr

/-- The `levels` table of `getHigherBumpType`. -/
def bumpLevel : Bump → Nat
  | .patch => 1
  | .minor => 2
  | .major => 3

/-- Severity with `null` at the bottom (used only to state the
"monotone max" property). -/
def optBumpLevel : Option Bump → Nat
  | none => 0
  | some b => bumpLevel b

/-- `determineBumpTypeFromMessage`: lower-case and trim, then the
`includes || startsWith(':')` keyword cascade. -/
def determineBumpTypeFromMessage (message : String) : Option Bump :=
  let lowerMessage := trimJS (lowerJS message)
  if includesS lowerMessage "major" || startsWithS lowerMessage "major:"
    then some .major
  else if includesS lowerMessage "minor"
      || startsWithS lowerMessage "minor:" then some .minor
  else if includesS lowerMessage "patch"
      || startsWithS lowerMessage "patch:" then some .patch
  else none

/-- The classifier as the specification words it: a single containment
check per keyword.  Stated from the spec's words, to be compared with
the source-derived `determineBumpTypeFromMessage`. -/
def determineBumpType_specModel (message : String) : Option Bump :=
  let m := trimJS (lowerJS message)
  if includesS m "major" then some .major
  else if includesS m "minor" then some .minor
  else if includesS m "patch" then some .patch
  else none

/-- `getHigherBumpType`: `null` is the identity, otherwise the higher
level wins. -/
def getHigherBumpType : Option Bump → Option Bump → Option Bump
  | none, b => b
  | some a, none => some a
  | some a, some b => if bumpLevel a > bumpLevel b then some a else some b

/-- The reduction loop of `main` over the successful outcomes' commit
messages (a falsy — empty — message is not classified). -/
def highestBumpType (msgs : List String) : Option Bump :=
  msgs.foldl
    (fun highest m =>
      if m = "" then highest
      else getHigherBumpType highest (determineBumpTypeFromMessage m))
    none

/-! ## `main` (batch-configuration handling) -/

/-- `target_repos_input.split(',').map(repo => repo.trim())`. -/
def parseTargetRepos (input : String) : List String :=
  (splitSep ',' input).map trimJS

/-- What a run of `main` amounts to at the batch level: a configuration
error thrown (and reported by `setFailed`) before `executeSquashMerge`
runs, or a completed batch together with the terminal failure message
(`none` when the failed bucket is empty). -/
inductive MainResult where
  | fatalBefore (msg : String)
  | completed (results : BatchResults) (failedMsg : Option String)
deriving DecidableEq, Repr

/-- `main` (`src/index.js`): parse the repository list, check the token
and the (never-empty) parsed list, run the batch, and mark the run
failed exactly when the failed bucket is non-empty. -/
def mainModel (token reposInput : String)
    (proc : String → String → ProcResult) : MainResult :=
  let target_repos := parseTargetRepos reposInput
  if token = "" then .fatalBefore "GitHub token is required"
  else if target_repos.length = 0 then
    .fatalBefore "Target repositories are required"
  else
    let results := executeSquashMerge proc target_repos
    if results.failed.length ≠ 0 then
      .completed results
        (some ("Failed to merge in repositories: "
          ++ String.intercalate ", " (results.failed.map (·.repo))))
    else .completed results none

/-! ## Concrete fixtures used by witnesses and counterexamples -/

/-- A pipeline oracle whose every call resolves to a success record. -/
def procAllSuccess : String → String → ProcResult :=
  fun _ _ => .returns true false none

/-- A pipeline oracle whose every call resolves to a skipped record. -/
def procAllSkip : String → String → ProcResult :=
  fun _ _ => .returns false true none

/-- A pipeline oracle that throws for owner `"a"` and succeeds
elsewhere. -/
def procThrowsOnA : String → String → ProcResult :=
  fun owner _ =>
    if owner = "a" then .throws "boom" else .returns true false none

/-- Pipeline environment with a zero-ahead comparison. -/
def envZeroAhead : PipeEnv :=
  ⟨.ok ⟨0, []⟩, .ok ⟨"sha1", "patch: x"⟩, .ok (), .ok "sha2", .ok (),
   .ok "sha2", .ok ⟨"tag"⟩⟩

/-- Pipeline environment in which every external call succeeds
(comparison two commits ahead). -/
def envAllOk : PipeEnv :=
  ⟨.ok ⟨2, [⟨"abcdef12", "m1"⟩]⟩, .ok ⟨"sha1", "patch: x"⟩, .ok (),
   .ok "sha2", .ok (), .ok "sha2", .ok ⟨"tag"⟩⟩

/-- Pipeline environment in which the `deleteRef` call is rejected. -/
def envDeleteFails : PipeEnv :=
  ⟨.ok ⟨1, []⟩, .ok ⟨"sha1", "m"⟩, .error "boom", .ok "sha2", .ok (),
   .ok "sha2", .ok ⟨"tag"⟩⟩

/-- Pipeline environment in which the recreate step's `createRef` call
is rejected. -/
def envCreateRefFails : PipeEnv :=
  ⟨.ok ⟨1, []⟩, .ok ⟨"sha1", "m"⟩, .ok (), .ok "sha2",
   .error "createRef failed", .ok "sha2", .ok ⟨"tag"⟩⟩

/-- Git environment for the local strategy in which every command
succeeds. -/
def gitEnvAllOk : GitEnv :=
  ⟨.ok "/tmp/tmp.X\n", .ok (), .ok (), .ok (), .ok (), .ok (), .ok (),
   .ok "v1.2 minor\n", .ok (), .ok (), .ok (), .ok (), .ok "abc123\n"⟩

/-- Twelve identical commits (used for the overflow example of the
commit-message composer). -/
def twelveCommits : List CommitInfo :=
  List.replicate 12 ⟨"0123456789", "hello\nworld"⟩

/-! ## Helper lemmas: string primitives -/

theorem strAppend_assoc (a b c : String) : a ++ b ++ c = a ++ (b ++ c) := by
  cases a with
  | mk da =>
    cases b with
    | mk db =>
      cases c with
      | mk dc =>
        show String.mk (da ++ db ++ dc) = String.mk (da ++ (db ++ dc))
        rw [List.append_assoc]

theorem strAppend_empty (a : String) : a ++ "" = a := by
  cases a with
  | mk da =>
    show String.mk (da ++ []) = String.mk da
    rw [List.append_nil]

theorem splitSepL_ne_nil (sep : Char) (l : List Char) :
    splitSepL sep l ≠ [] := by
  induction l with
  | nil => simp [splitSepL]
  | cons c cs ih =>
    simp only [splitSepL]
    by_cases h : c = sep
    · simp [h]
    · simp only [h, if_neg, ite_false]
      cases hs : splitSepL sep cs with
      | nil => exact absurd hs ih
      | cons h t => simp

theorem splitSep_ne_nil (sep : Char) (s : String) :
    splitSep sep s ≠ [] := by
  unfold splitSep
  intro h
  exact splitSepL_ne_nil sep s.data (List.map_eq_nil_iff.mp h)

/-- A list that starts with `p ++ q` starts with `p`. -/
theorem isPrefixOf_append_left (p q l : List Char) :
    (p ++ q).isPrefixOf l = true → p.isPrefixOf l = true := by
  induction p generalizing l with
  | nil => intro _; simp [List.isPrefixOf]
  | cons a as ih =>
    intro h
    cases l with
    | nil => simp [List.isPrefixOf] at h
    | cons b bs =>
      simp only [List.cons_append, List.isPrefixOf, Bool.and_eq_true] at h ⊢
      exact ⟨h.1, ih bs h.2⟩

/-- A prefix of a list occurs in it. -/
theorem includesL_of_isPrefixOf (needle hay : List Char)
    (h : needle.isPrefixOf hay = true) : includesL needle hay = true := by
  cases hay with
  | nil =>
    cases needle with
    | nil => rfl
    | cons a as => simp [List.isPrefixOf] at h
  | cons c cs => simp [includesL, h]

/-- The redundant "contains the keyword OR starts with `keyword:`" test of
the classifier collapses to the plain containment test. -/
theorem includes_or_startsWith_colon (pat : List Char) (c : Char)
    (l : List Char) :
    (includesL pat l || (pat ++ [c]).isPrefixOf l) = includesL pat l := by
  cases hinc : includesL pat l with
  | true => simp
  | false =>
    simp only [Bool.false_or]
    cases hp : (pat ++ [c]).isPrefixOf l with
    | false => rfl
    | true =>
      have h1 := isPrefixOf_append_left pat [c] l hp
      have h2 := includesL_of_isPrefixOf pat l h1
      rw [hinc] at h2
      exact absurd h2 (by simp)

/-! ## Helper lemmas: iterator -/

theorem runBuckets_append (proc : String → String → ProcResult)
    (xs ys : List String) :
    runBuckets proc (xs ++ ys) =
      (((runBuckets proc xs).1.1 ++ (runBuckets proc ys).1.1,
        (runBuckets proc xs).1.2.1 ++ (runBuckets proc ys).1.2.1,
        (runBuckets proc xs).1.2.2 ++ (runBuckets proc ys).1.2.2),
       (runBuckets proc xs).2 ++ (runBuckets proc ys).2) := by
  induction xs with
  | nil => simp [runBuckets]
  | cons r rs ih =>
    simp only [List.cons_append, runBuckets]
    by_cases hs : (stepOutcome proc r).success
    · simp [hs, ih]
    · by_cases hk : (stepOutcome proc r).skipped
      · simp [hs, hk, ih]
      · simp [hs, hk, ih]

theorem runBuckets_successful_eq_filter
    (proc : String → String → ProcResult) (repos : List String) :
    (runBuckets proc repos).1.1 =
      (repos.map (stepOutcome proc)).filter (fun o => o.success) := by
  induction repos with
  | nil => rfl
  | cons r rs ih =>
    simp only [runBuckets, List.map_cons, List.filter_cons]
    by_cases hs : (stepOutcome proc r).success
    · simp [hs, ih]
    · by_cases hk : (stepOutcome proc r).skipped
      · simp [hs, hk, ih]
      · simp [hs, hk, ih]

theorem runBuckets_skipped_eq_filter
    (proc : String → String → ProcResult) (repos : List String) :
    (runBuckets proc repos).1.2.2 =
      (repos.map (stepOutcome proc)).filter
        (fun o => !o.success && o.skipped) := by
  induction repos with
  | nil => rfl
  | cons r rs ih =>
    simp only [runBuckets, List.map_cons, List.filter_cons]
    by_cases hs : (stepOutcome proc r).success
    · simp [hs, ih]
    · by_cases hk : (stepOutcome proc r).skipped
      · simp [hs, hk, ih]
      · simp [hs, hk, ih]

theorem runBuckets_failed_eq_filter
    (proc : String → String → ProcResult) (repos : List String) :
    (runBuckets proc repos).1.2.1 =
      (repos.map (stepOutcome proc)).filter
        (fun o => !o.success && !o.skipped) := by
  induction repos with
  | nil => rfl
  | cons r rs ih =>
    simp only [runBuckets, List.map_cons, List.filter_cons]
    by_cases hs : (stepOutcome proc r).success
    · simp [hs, ih]
    · by_cases hk : (stepOutcome proc r).skipped
      · simp [hs, hk, ih]
      · simp [hs, hk, ih]

theorem runBuckets_length (proc : String → String → ProcResult)
    (repos : List String) :
    (runBuckets proc repos).1.1.length +
      (runBuckets proc repos).1.2.1.length +
      (runBuckets proc repos).1.2.2.length = repos.length := by
  induction repos with
  | nil => rfl
  | cons r rs ih =>
    simp only [runBuckets, List.length_cons]
    by_cases hs : (stepOutcome proc r).success
    · simp only [hs, if_true, List.length_cons]
      omega
    · by_cases hk : (stepOutcome proc r).skipped
      · simp only [hs, hk, if_false, if_true, Bool.false_eq_true,
          List.length_cons]
        omega
      · simp only [hs, hk, if_false, Bool.false_eq_true,
          List.length_cons]
        omega

/-! ## Helper lemmas: composer -/

theorem foldl_append_eq_strConcat (l : List CommitInfo) (init : String) :
    l.foldl (fun m c => m ++ commitLine c) init =
      init ++ strConcat (l.map commitLine) := by
  induction l generalizing init with
  | nil => simp [strConcat, strAppend_empty]
  | cons c cs ih =>
    simp only [List.foldl_cons, List.map_cons, strConcat]
    rw [ih, strAppend_assoc]

/-! ## Claim theorems -/

/-- C5: in template mode, `createCommitMessage` replaces only the first
occurrence of the literal placeholders `{source}` and `{target}` with the
branch names, then appends a trailer `"Merged N commits:"` followed by at
most 10 lines `"- <8-char SHA>: <first line truncated to 60 chars>"` in
comparison order, plus — when the commit count exceeds 10 — a final line
`"... and K more commits"` with `K = total − 10`; in particular 12
commits yield exactly 10 listed lines plus `"... and 2 more commits"`. -/
theorem createCommitMessage_conforms :
    (∀ (template sourceBranch targetBranch : String)
        (commits : List CommitInfo),
      createCommitMessage template sourceBranch targetBranch commits =
        createCommitMessage_specModel template sourceBranch targetBranch
          commits) ∧
    replaceFirst "{source}+{source}" "{source}" "X" = "X+{source}" ∧
    ((twelveCommits.take 10).map commitLine).length = 10 ∧
    createCommitMessage "Merge {source} into {target}" "staging" "main"
        twelveCommits =
      "Merge staging into main\n\nMerged 12 commits:\n"
        ++ strConcat (List.replicate 10 "- 01234567: hello\n")
        ++ "... and 2 more commits\n" := by
  refine ⟨?_, ?_, ?_, ?_⟩
  · intro t s g cs
    simp only [createCommitMessage, createCommitMessage_specModel]
    rw [foldl_append_eq_strConcat]
    by_cases h : cs.length > 10
    · simp only [h, if_true, strAppend_assoc]
    · simp only [h, if_false, strAppend_assoc, strAppend_empty]
  · rfl
  · rfl
  · set_option maxRecDepth 4000 in decide

/-- C6: the bump classification of a single message lower-cases and trims
it and returns `major`/`minor`/`patch` by containment in that priority
order (the `startsWith(':')` disjuncts are redundant); the reduction is a
fold with `none` as identity computing the maximum under
`major > minor > patch > none`; `"patch: fix bug"` classifies as patch,
`"Major rewrite"` as major, reducing `[patch, none, minor]` gives minor,
and reducing the empty list gives none. -/
theorem bump_classifier_conforms :
    (∀ m : String,
      determineBumpTypeFromMessage m = determineBumpType_specModel m) ∧
    determineBumpTypeFromMessage "patch: fix bug" = some Bump.patch ∧
    determineBumpTypeFromMessage "Major rewrite" = some Bump.major ∧
    (∀ b : Option Bump, getHigherBumpType none b = b) ∧
    (∀ a : Option Bump, getHigherBumpType a none = a) ∧
    (∀ a b : Option Bump,
      optBumpLevel (getHigherBumpType a b) =
        max (optBumpLevel a) (optBumpLevel b)) ∧
    [some Bump.patch, none, some Bump.minor].foldl getHigherBumpType none
      = some Bump.minor ∧
    ([] : List (Option Bump)).foldl getHigherBumpType none = none ∧
    highestBumpType [] = none := by
  refine ⟨?_, by decide, by decide, ?_, ?_, ?_, by decide, rfl, rfl⟩
  · intro m
    simp only [determineBumpTypeFromMessage, determineBumpType_specModel,
      includesS, startsWithS]
    simp only [show (['m','a','j','o','r',':'] : List Char)
          = ['m','a','j','o','r'] ++ [':'] from rfl,
      show (['m','i','n','o','r',':'] : List Char)
          = ['m','i','n','o','r'] ++ [':'] from rfl,
      show (['p','a','t','c','h',':'] : List Char)
          = ['p','a','t','c','h'] ++ [':'] from rfl,
      includes_or_startsWith_colon]
  · intro b
    cases b <;> rfl
  · intro a
    cases a <;> rfl
  · intro a b
    rcases a with _ | a
    · rcases b with _ | b
      · rfl
      · cases b <;> rfl
    · rcases b with _ | b
      · cases a <;> rfl
      · cases a <;> cases b <;> decide

/-- C1 counterexample: in the batch run over `["a/b/c"]` with an
always-succeeding pipeline, the summary counts are consistent but the
input identifier `"a/b/c"` appears in NONE of the three outcome
sequences — the recorded identifier is the truncation `"a/b"` (the
pipeline is invoked with the first two `/`-segments and builds its
`repo` field from them). -/
theorem identifier_lost_for_multi_slash_input :
    (executeSquashMerge procAllSuccess ["a/b/c"]).successful.map
        (·.repo) = ["a/b"] ∧
    (executeSquashMerge procAllSuccess ["a/b/c"]).failed = [] ∧
    (executeSquashMerge procAllSuccess ["a/b/c"]).skipped = [] ∧
    "a/b/c" ∉
      ((executeSquashMerge procAllSuccess ["a/b/c"]).successful.map
          (·.repo) ++
        (executeSquashMerge procAllSuccess ["a/b/c"]).failed.map (·.repo) ++
        (executeSquashMerge procAllSuccess ["a/b/c"]).skipped.map
          (·.repo)) := by
  refine ⟨rfl, rfl, rfl, ?_⟩
  decide

/-- C1 (amended): for every batch run, `summary.total` equals the input
length and equals `successful + failed + skipped`; each input element
contributes exactly one outcome to exactly one of the three sequences
(the sequences are the in-order filtrations of the per-element outcomes,
so each keeps original input order); the outcome's recorded identifier
is the input identifier itself except when the pipeline runs, in which
case it is the first two `/`-segments rejoined (which equals the input
exactly for well-formed `owner/repo` identifiers). -/
theorem executeSquashMerge_partition
    (proc : String → String → ProcResult) (repos : List String) :
    (executeSquashMerge proc repos).summary.total = repos.length ∧
    (executeSquashMerge proc repos).summary.total =
      (executeSquashMerge proc repos).successful.length +
        (executeSquashMerge proc repos).failed.length +
        (executeSquashMerge proc repos).skipped.length ∧
    (executeSquashMerge proc repos).successful =
      (repos.map (stepOutcome proc)).filter (fun o => o.success) ∧
    (executeSquashMerge proc repos).skipped =
      (repos.map (stepOutcome proc)).filter
        (fun o => !o.success && o.skipped) ∧
    (executeSquashMerge proc repos).failed =
      (repos.map (stepOutcome proc)).filter
        (fun o => !o.success && !o.skipped) ∧
    ∀ r, (stepOutcome proc r).repo =
      (if invalidFmt r then r
       else
         match proc (seg0 r) (seg1 r) with
         | .throws _ => r
         | .returns _ _ _ => seg0 r ++ "/" ++ seg1 r) := by
  refine ⟨rfl, ?_, ?_, ?_, ?_, ?_⟩
  · have h := runBuckets_length proc repos
    show repos.length =
      (runBuckets proc repos).1.1.length +
        (runBuckets proc repos).1.2.1.length +
        (runBuckets proc repos).1.2.2.length
    omega
  · exact runBuckets_successful_eq_filter proc repos
  · exact runBuckets_skipped_eq_filter proc repos
  · exact runBuckets_failed_eq_filter proc repos
  · intro r
    unfold stepOutcome
    by_cases h : invalidFmt r
    · simp [h]
    · simp only [h, if_false, Bool.false_eq_true]
      cases proc (seg0 r) (seg1 r) <;> rfl

/-- C2 counterexample: the identifier `"a/b/c"` does not have exactly
one `/`, yet the iterator does NOT record a `Failed {error: 'Invalid
repository format'}` outcome for it and DOES invoke the pipeline — with
owner `"a"` and repo `"b"`, the segments beyond the second being
dropped. -/
theorem multi_slash_invokes_pipeline :
    (executeSquashMerge procAllSkip ["a/b/c"]).failed = [] ∧
    (executeSquashMerge procAllSkip ["a/b/c"]).calls = [("a", "b")] ∧
    (executeSquashMerge procAllSkip ["a/b/c"]).skipped.map (·.repo) =
      ["a/b"] := by
  refine ⟨rfl, rfl, rfl⟩

/-- C2 (amended): the iterator records
`Failed {error: 'Invalid repository format'}` without invoking the
pipeline exactly when the first or the second `/`-segment of the
identifier is missing or empty; an identifier whose first two segments
are non-empty — even one with two or more `/` — invokes the pipeline on
those first two segments. -/
theorem invalid_format_vs_pipeline_invocation
    (proc : String → String → ProcResult) (r : String) :
    (invalidFmt r = true →
      executeSquashMerge proc [r] =
        ⟨[], [⟨r, false, false, some "Invalid repository format"⟩], [],
         ⟨1, 0, 1, 0⟩, []⟩) ∧
    (invalidFmt r = false →
      (executeSquashMerge proc [r]).calls = [(seg0 r, seg1 r)] ∧
      (executeSquashMerge proc [r]).summary.total = 1) := by
  constructor
  · intro h
    have hstep : stepOutcome proc r =
        ⟨r, false, false, some "Invalid repository format"⟩ := by
      unfold stepOutcome
      simp [h]
    have hcalls : stepCalls r = [] := by
      unfold stepCalls
      simp [h]
    simp [executeSquashMerge, runBuckets, hstep, hcalls]
  · intro h
    have hcalls : stepCalls r = [(seg0 r, seg1 r)] := by
      unfold stepCalls
      simp [h]
    refine ⟨?_, rfl⟩
    simp [executeSquashMerge, runBuckets, hcalls]

/-- C2 witness: `"a/"` (empty second segment) is recorded as `Failed`
with no pipeline call; `"a/b/c"` (well-formed first two segments) leads
to a pipeline call on `("a", "b")`. -/
theorem invalid_format_vs_pipeline_invocation_witness :
    (invalidFmt "a/" = true ∧
      executeSquashMerge procAllSuccess ["a/"] =
        ⟨[], [⟨"a/", false, false, some "Invalid repository format"⟩], [],
         ⟨1, 0, 1, 0⟩, []⟩) ∧
    (invalidFmt "a/b/c" = false ∧
      (executeSquashMerge procAllSuccess ["a/b/c"]).calls =
        [(seg0 "a/b/c", seg1 "a/b/c")] ∧
      (executeSquashMerge procAllSuccess ["a/b/c"]).summary.total = 1) :=
  ⟨⟨by decide,
    (invalid_format_vs_pipeline_invocation procAllSuccess "a/").1
      (by decide)⟩,
   ⟨by decide,
    (invalid_format_vs_pipeline_invocation procAllSuccess "a/b/c").2
      (by decide)⟩⟩

/-- C7: an error thrown while processing one repository (here: thrown by
the pipeline call for a well-formed element `r`) is converted into a
`Failed` outcome carrying the error's message, and the batch continues:
the outcome sequences of the whole run are exactly those of the runs on
the elements before and after `r`, with only the extra `Failed` record
for `r` inserted in the failed sequence. -/
theorem pipeline_error_isolated (proc : String → String → ProcResult)
    (xs ys : List String) (r m : String)
    (hfmt : invalidFmt r = false)
    (hthrow : proc (seg0 r) (seg1 r) = .throws m) :
    (executeSquashMerge proc (xs ++ r :: ys)).successful =
      (executeSquashMerge proc xs).successful ++
        (executeSquashMerge proc ys).successful ∧
    (executeSquashMerge proc (xs ++ r :: ys)).skipped =
      (executeSquashMerge proc xs).skipped ++
        (executeSquashMerge proc ys).skipped ∧
    (executeSquashMerge proc (xs ++ r :: ys)).failed =
      (executeSquashMerge proc xs).failed ++
        ⟨r, false, false, some m⟩ ::
          (executeSquashMerge proc ys).failed ∧
    (executeSquashMerge proc (xs ++ r :: ys)).summary.total =
      xs.length + 1 + ys.length := by
  have hstep : stepOutcome proc r = ⟨r, false, false, some m⟩ := by
    unfold stepOutcome
    simp [hfmt, hthrow]
  have happ := runBuckets_append proc xs (r :: ys)
  refine ⟨?_, ?_, ?_, ?_⟩
  · show (runBuckets proc (xs ++ r :: ys)).1.1 = _
    rw [happ]
    simp [runBuckets, hstep, executeSquashMerge]
  · show (runBuckets proc (xs ++ r :: ys)).1.2.2 = _
    rw [happ]
    simp [runBuckets, hstep, executeSquashMerge]
  · show (runBuckets proc (xs ++ r :: ys)).1.2.1 = _
    rw [happ]
    simp [runBuckets, hstep, executeSquashMerge]
  · show (xs ++ r :: ys).length = _
    simp
    omega

/-- C7 witness: in the batch `["x/y", "a/b", "p/q"]` where the pipeline
throws `"boom"` exactly for owner `"a"`, the failed sequence is exactly
the `Failed {repo: "a/b", error: "boom"}` record and the other two
repositories' outcomes are those of their own runs. -/
theorem pipeline_error_isolated_witness :
    (executeSquashMerge procThrowsOnA ["x/y", "a/b", "p/q"]).successful =
      (executeSquashMerge procThrowsOnA ["x/y"]).successful ++
        (executeSquashMerge procThrowsOnA ["p/q"]).successful ∧
    (executeSquashMerge procThrowsOnA ["x/y", "a/b", "p/q"]).skipped =
      (executeSquashMerge procThrowsOnA ["x/y"]).skipped ++
        (executeSquashMerge procThrowsOnA ["p/q"]).skipped ∧
    (executeSquashMerge procThrowsOnA ["x/y", "a/b", "p/q"]).failed =
      (executeSquashMerge procThrowsOnA ["x/y"]).failed ++
        ⟨"a/b", false, false, some "boom"⟩ ::
          (executeSquashMerge procThrowsOnA ["p/q"]).failed ∧
    (executeSquashMerge procThrowsOnA ["x/y", "a/b", "p/q"]).summary.total
      = 3 :=
  pipeline_error_isolated procThrowsOnA ["x/y"] ["p/q"] "a/b" "boom"
    (by decide) (by decide)

/-- C3: whenever the source-to-target comparison resolves with
`ahead_by == 0`, `processRepository` returns the `Skipped` outcome with
reason `'No changes to merge - branches are identical'` — never a
`Success` or `Failed` outcome — and performs no operation beyond the
comparison itself (no merge, no deletion, no recreation, no release). -/
theorem zero_ahead_always_skips (env : PipeEnv)
    (owner repo source_branch target_branch
      delete_source_branch create_release : String)
    (c : Comparison) (hc : env.compareRes = .ok c)
    (h0 : c.ahead_by = 0) :
    processRepository env owner repo source_branch target_branch
        delete_source_branch create_release =
      (.skippedOut (owner ++ "/" ++ repo)
         "No changes to merge - branches are identical",
       [Effect.compareCommits]) := by
  unfold processRepository
  rw [hc]
  simp [h0]

/-- C3 witness: a concrete environment whose comparison is zero commits
ahead, with both optional flags requested, yields exactly the skipped
outcome and the single comparison effect. -/
theorem zero_ahead_always_skips_witness :
    processRepository envZeroAhead "o" "r" "s" "t" "true" "true" =
      (.skippedOut "o/r" "No changes to merge - branches are identical",
       [Effect.compareCommits]) :=
  zero_ahead_always_skips envZeroAhead "o" "r" "s" "t" "true" "true"
    ⟨0, []⟩ rfl rfl

/-- C4: when the delete flag is `'true'` and the source branch is the
protected name `main` or `master`, `deleteSourceBranch` returns without
error and without calling the ref-deletion operation (no `deleteRef`
effect occurs anywhere in the run), yet a `Success` outcome still
reports `source_branch_deleted = true` — the flag's value, not whether a
deletion occurred. -/
theorem protected_branch_deletion_noop (env : PipeEnv)
    (owner repo target_branch create_release source_branch : String)
    (hp : source_branch = "main" ∨ source_branch = "master") :
    deleteSourceBranch env source_branch = (Except.ok (), []) ∧
    Effect.deleteRef source_branch ∉
      (processRepository env owner repo source_branch target_branch
        "true" create_release).2 ∧
    (∀ full n sha msg del rel,
      (processRepository env owner repo source_branch target_branch
          "true" create_release).1 = .success full n sha msg del rel →
      del = true) := by
  have hdel : deleteSourceBranch env source_branch = (Except.ok (), []) := by
    rcases hp with h | h <;> simp [deleteSourceBranch, h]
  refine ⟨hdel, ?_, ?_⟩
  · unfold processRepository
    cases hc : env.compareRes with
    | error e => simp
    | ok c =>
      by_cases h0 : c.ahead_by = 0
      · simp [h0]
      · cases hm : env.mergeRes with
        | error e => simp [h0]
        | ok mr =>
          simp only [h0, if_false, hdel]
          unfold recreateSourceBranchAfterDeletion
          cases hr : env.recreateGetRefRes with
          | error e => simp
          | ok sha =>
            cases hcr : env.createRefRes with
            | error e => simp
            | ok u =>
              by_cases hrel : create_release = "true"
              · simp only [hrel, if_true]
                unfold createReleaseStep
                cases hg : env.releaseGetRefRes with
                | error e => simp
                | ok s5 =>
                  cases hcl : env.createReleaseRes with
                  | error e => simp
                  | ok ri => simp
              · simp [hrel]
  · intro full n sha msg del rel hres
    unfold processRepository at hres
    cases hc : env.compareRes with
    | error e => rw [hc] at hres; simp at hres
    | ok c =>
      rw [hc] at hres
      by_cases h0 : c.ahead_by = 0
      · simp [h0] at hres
      · cases hm : env.mergeRes with
        | error e => rw [hm] at hres; simp [h0] at hres
        | ok mr =>
          rw [hm] at hres
          simp only [h0, if_false, hdel] at hres
          unfold recreateSourceBranchAfterDeletion at hres
          cases hr : env.recreateGetRefRes with
          | error e => rw [hr] at hres; simp at hres
          | ok sha2 =>
            rw [hr] at hres
            cases hcr : env.createRefRes with
            | error e => rw [hcr] at hres; simp at hres
            | ok u =>
              rw [hcr] at hres
              by_cases hrel : create_release = "true"
              · simp only [hrel, if_true] at hres
                unfold createReleaseStep at hres
                cases hg : env.releaseGetRefRes with
                | error e => rw [hg] at hres; simp at hres
                | ok s5 =>
                  rw [hg] at hres
                  cases hcl : env.createReleaseRes with
                  | error e => rw [hcl] at hres; simp at hres
                  | ok ri =>
                    rw [hcl] at hres
                    simp at hres
                    exact hres.2.2.2.2.1
              · simp only [hrel, if_false] at hres
                simp at hres
                exact hres.2.2.2.2.1

/-- C4 witness: with every external call succeeding and source branch
`main`, the deletion step is a silent no-op, no `deleteRef` effect
occurs, and the resulting `Success` outcome reports
`source_branch_deleted = true`. -/
theorem protected_branch_deletion_noop_witness :
    deleteSourceBranch envAllOk "main" = (Except.ok (), []) ∧
    Effect.deleteRef "main" ∉
      (processRepository envAllOk "o" "r" "main" "t" "true" "false").2 ∧
    (processRepository envAllOk "o" "r" "main" "t" "true" "false").1 =
      .success "o/r" 2 "sha1" "patch: x" true none :=
  ⟨(protected_branch_deletion_noop envAllOk "o" "r" "t" "false" "main"
      (Or.inl rfl)).1,
   (protected_branch_deletion_noop envAllOk "o" "r" "t" "false" "main"
      (Or.inl rfl)).2.1,
   rfl⟩

/-- C10 counterexample: with the delete flag `'true'` and a succeeded
merge, an error from the `deleteRef` call itself (source branch
`feature`, rejection `"boom"`) prevents `recreateSourceBranchAfterDeletion`
from ever being invoked — no recreate effect occurs — so recreation is
NOT always invoked in that configuration; the outcome is `Failed`. -/
theorem delete_error_skips_recreate :
    processRepository envDeleteFails "o" "r" "feature" "main" "true"
        "false" =
      (.failedOut "o/r" "boom",
       [Effect.compareCommits, Effect.squashMerge,
        Effect.deleteRef "feature"]) ∧
    Effect.getRefRecreate "main" ∉
      (processRepository envDeleteFails "o" "r" "feature" "main" "true"
        "false").2 := by
  refine ⟨rfl, ?_⟩
  decide

/-- C10 (amended): when the delete flag is `'true'`, the merge step
succeeded, and the deletion step completed without error (which is
automatic for the protected names `main`/`master`, where deletion is a
refused no-op), the pipeline always invokes
`recreateSourceBranchAfterDeletion` — reading the target branch's tip —
and any error raised there (by `getRef` or by `createRef`) converts the
whole repository outcome to `Failed` even though the merge effect has
already been performed. -/
theorem recreate_invoked_after_delete_step (env : PipeEnv)
    (owner repo source_branch target_branch create_release : String)
    (c : Comparison) (mr : MergeOk)
    (hc : env.compareRes = .ok c) (h0 : c.ahead_by ≠ 0)
    (hm : env.mergeRes = .ok mr)
    (hdel : source_branch = "main" ∨ source_branch = "master" ∨
      env.deleteRefRes = .ok ()) :
    Effect.getRefRecreate target_branch ∈
      (processRepository env owner repo source_branch target_branch
        "true" create_release).2 ∧
    Effect.squashMerge ∈
      (processRepository env owner repo source_branch target_branch
        "true" create_release).2 ∧
    (∀ e, env.recreateGetRefRes = .error e →
      (processRepository env owner repo source_branch target_branch
          "true" create_release).1 =
        .failedOut (owner ++ "/" ++ repo) e) ∧
    (∀ s e, env.recreateGetRefRes = .ok s →
      env.createRefRes = .error e →
      (processRepository env owner repo source_branch target_branch
          "true" create_release).1 =
        .failedOut (owner ++ "/" ++ repo) e) := by
  have hdelstep : (deleteSourceBranch env source_branch).1 = .ok () ∧
      Effect.getRefRecreate target_branch ∉
        (deleteSourceBranch env source_branch).2 := by
    rcases hdel with h | h | h
    · simp [deleteSourceBranch, h]
    · simp [deleteSourceBranch, h]
    · unfold deleteSourceBranch
      by_cases hp : source_branch = "main" ∨ source_branch = "master"
      · simp [hp]
      · simp [hp, h]
  unfold processRepository
  rw [hc, hm]
  simp only [h0, if_false]
  obtain ⟨hd1, hd2⟩ := hdelstep
  rcases hds : deleteSourceBranch env source_branch with ⟨dres, deff⟩
  rw [hds] at hd1 hd2
  simp only at hd1 hd2
  subst hd1
  unfold recreateSourceBranchAfterDeletion
  cases hr : env.recreateGetRefRes with
  | error e =>
    refine ⟨by simp, by simp, ?_, ?_⟩
    · intro e2 he2
      cases he2
      simp
    · intro s e2 hs
      exact absurd hs (by simp)
  | ok sha =>
    cases hcr : env.createRefRes with
    | error e =>
      refine ⟨by simp, by simp, ?_, ?_⟩
      · intro e2 he2
        exact absurd he2 (by simp)
      · intro s e2 hs hcr2
        cases hs
        cases hcr2
        simp
    | ok u =>
      refine ⟨?_, ?_, ?_, ?_⟩
      · by_cases hrel : create_release = "true"
        · simp only [hrel, if_true]
          unfold createReleaseStep
          cases hg : env.releaseGetRefRes with
          | error e => simp
          | ok s5 =>
            cases hcl : env.createReleaseRes with
            | error e => simp
            | ok ri => simp
        · simp [hrel]
      · by_cases hrel : create_release = "true"
        · simp only [hrel, if_true]
          unfold createReleaseStep
          cases hg : env.releaseGetRefRes with
          | error e => simp
          | ok s5 =>
            cases hcl : env.createReleaseRes with
            | error e => simp
            | ok ri => simp
        · simp [hrel]
      · intro e2 he2
        exact absurd he2 (by simp)
      · intro s e2 hs hcr2
        exact absurd hcr2 (by simp)

/-- C10 witness: with source branch `main` (deletion refused as a
no-op) and a rejected `createRef`, recreation is still attempted — the
target branch's tip is read — and the outcome is
`Failed {error: 'createRef failed'}` although the merge effect was
performed. -/
theorem recreate_invoked_after_delete_step_witness :
    Effect.getRefRecreate "t" ∈
      (processRepository envCreateRefFails "o" "r" "main" "t" "true"
        "false").2 ∧
    Effect.squashMerge ∈
      (processRepository envCreateRefFails "o" "r" "main" "t" "true"
        "false").2 ∧
    (processRepository envCreateRefFails "o" "r" "main" "t" "true"
        "false").1 = .failedOut "o/r" "createRef failed" :=
  ⟨(recreate_invoked_after_delete_step envCreateRefFails "o" "r" "main"
      "t" "false" ⟨1, []⟩ ⟨"sha1", "m"⟩ rfl (by decide) rfl
      (Or.inl rfl)).1,
   (recreate_invoked_after_delete_step envCreateRefFails "o" "r" "main"
      "t" "false" ⟨1, []⟩ ⟨"sha1", "m"⟩ rfl (by decide) rfl
      (Or.inl rfl)).2.1,
   (recreate_invoked_after_delete_step envCreateRefFails "o" "r" "main"
      "t" "false" ⟨1, []⟩ ⟨"sha1", "m"⟩ rfl (by decide) rfl
      (Or.inl rfl)).2.2.2 "sha2" "createRef failed" rfl rfl⟩

/-- C8 counterexample: a fully successful local-strategy run restores
the ambient working directory, but the ephemeral temporary clone
directory is NOT discarded — it is still present in the final
filesystem state (the source never removes the `mktemp -d` directory),
refuting the claim's "deterministically discarded" conjunct. -/
theorem temp_clone_dir_not_discarded :
    performSquashMerge gitEnvAllOk ⟨"/home/runner", []⟩ =
      (.ok ⟨"abc123", "v1.2 minor"⟩,
       ⟨"/home/runner", ["/tmp/tmp.X"]⟩) ∧
    (performSquashMerge gitEnvAllOk ⟨"/home/runner", []⟩).2.tempDirs ≠
      [] := by
  refine ⟨rfl, ?_⟩
  decide

/-- C8 (amended): on every exit path of `performSquashMerge` — success
or any rejected command at any step — the `finally` block restores the
process's ambient working directory to its value at entry; the
temporary clone directory, however, is never removed. -/
theorem cwd_restored_on_every_exit_path (env : GitEnv) (s0 : FsState) :
    ((performSquashMerge env s0).2).cwd = s0.cwd := by
  unfold performSquashMerge
  cases h : (performSquashMergeBody env s0).1 <;> simp [h]

/-- C9 counterexample: with a present token and an EMPTY repository-list
input, the run is not stopped before processing: JS `"".split(',')`
yields `[""]`, so the batch runs over one (invalid) identifier, a
per-repository `Failed` outcome IS recorded, and the run is marked
failed only after the batch completes. -/
theorem empty_repos_input_records_outcome :
    mainModel "t" "" procAllSuccess =
      .completed
        ⟨[], [⟨"", false, false, some "Invalid repository format"⟩], [],
         ⟨1, 0, 1, 0⟩, []⟩
        (some "Failed to merge in repositories: ") ∧
    parseTargetRepos "" = [""] ∧
    (executeSquashMerge procAllSuccess
      (parseTargetRepos "")).summary.total = 1 := by
  refine ⟨rfl, rfl, rfl⟩

/-- C9 (amended): a missing token is fatal and reported before any
repository is processed; the parsed repository list is never empty
(splitting any string on `,` yields at least one element), so the
empty-list guard of `main` can never fire; an empty repository-list
input instead yields a single `Failed {error: 'Invalid repository
format'}` outcome — the pipeline is not invoked, but an outcome is
recorded and the run is marked failed after the batch completes. -/
theorem batch_config_error_handling (token reposInput : String)
    (proc : String → String → ProcResult) :
    (token = "" →
      mainModel token reposInput proc =
        .fatalBefore "GitHub token is required") ∧
    parseTargetRepos reposInput ≠ [] ∧
    (token ≠ "" →
      mainModel token "" proc =
        .completed (executeSquashMerge proc [""])
          (some "Failed to merge in repositories: ") ∧
      (executeSquashMerge proc [""]).calls = [] ∧
      (executeSquashMerge proc [""]).failed =
        [⟨"", false, false, some "Invalid repository format"⟩] ∧
      (executeSquashMerge proc [""]).summary = ⟨1, 0, 1, 0⟩) := by
  refine ⟨?_, ?_, ?_⟩
  · intro h
    simp [mainModel, h]
  · unfold parseTargetRepos
    intro h
    exact splitSep_ne_nil ',' reposInput (List.map_eq_nil_iff.mp h)
  · intro h
    have hstep : stepOutcome proc "" =
        ⟨"", false, false, some "Invalid repository format"⟩ := by
      unfold stepOutcome
      simp [show invalidFmt "" = true from rfl]
    have hcalls : stepCalls "" = [] := by
      unfold stepCalls
      simp [show invalidFmt "" = true from rfl]
    have hrun : executeSquashMerge proc [""] =
        ⟨[], [⟨"", false, false, some "Invalid repository format"⟩], [],
         ⟨1, 0, 1, 0⟩, []⟩ := by
      simp [executeSquashMerge, runBuckets, hstep, hcalls]
    refine ⟨?_, ?_, ?_, ?_⟩
    · unfold mainModel
      simp only [h, if_false]
      rw [show parseTargetRepos "" = [""] from rfl]
      simp [hrun]
      rw [show (String.intercalate ", " [""]) = "" from rfl]
      exact strAppend_empty _
    · rw [hrun]
    · rw [hrun]
    · rw [hrun]

/-- C9 witness: with an empty token the run fails fatally before
processing; with token `"t"` and empty repository input the run
completes with one recorded `Failed` outcome and no pipeline call. -/
theorem batch_config_error_handling_witness :
    mainModel "" "a/b" procAllSuccess =
      .fatalBefore "GitHub token is required" ∧
    parseTargetRepos "" ≠ [] ∧
    mainModel "t" "" procAllSuccess =
      .completed (executeSquashMerge procAllSuccess [""])
        (some "Failed to merge in repositories: ") ∧
    (executeSquashMerge procAllSuccess [""]).calls = [] :=
  ⟨(batch_config_error_handling "" "a/b" procAllSuccess).1 rfl,
   (batch_config_error_handling "t" "" procAllSuccess).2.1,
   ((batch_config_error_handling "t" "" procAllSuccess).2.2
      (by decide)).1,
   ((batch_config_error_handling "t" "" procAllSuccess).2.2
      (by decide)).2.1⟩

end SquashMerge
